import Mathlib

/-!
Shallow embedding of the `actions-cache-gcs` repository core:
the archive command builder (`src/tar.ts`), the options module
(`src/options.ts`) and the save/restore cache orchestration
(`src/cache.ts`).

Ambient environment reads (platform, working directory, environment
variables, process-execution and network outcomes) are passed in as
explicit parameters; everything else is translated directly from the
TypeScript source.
-/

namespace GcsCache

/-- Host platform as observed through `process.platform`; `linux` stands for
the default branch (anything that is neither `win32` nor `darwin`). -/
inductive Platform where
  | win32
  | darwin
  | linux
deriving DecidableEq, BEq, Repr

/-- Archive tool variant (`type ArchiveToolType = "gnu" | "bsd"`). -/
inductive ArchiveToolType where
  | gnu
  | bsd
deriving DecidableEq, BEq, Repr

/-- Resolved archive tool (`type ArchiveTool = { path, type }`). -/
structure ArchiveTool where
  path : String
  type : ArchiveToolType
deriving DecidableEq, BEq, Repr

/-- Command type (`type CommandType = "create" | "extract" | "list"`). -/
inductive CommandType where
  | create
  | extract
  | list
deriving DecidableEq, BEq, Repr

/-- Compression method (`type CompressionMethod = "gzip" | "zstd"` in
`src/utils.ts`). -/
inductive CompressionMethod where
  | gzip
  | zstd
deriving DecidableEq, BEq, Repr

/-- String form of a compression method, as interpolated by the source. -/
def CompressionMethod.toString : CompressionMethod → String
  | .gzip => "gzip"
  | .zstd => "zstd"

/-- Embedding of `getCacheFilename` from `src/utils.ts`:
returns `cache.tar.${method}`. -/
def getCacheFilename (m : CompressionMethod) : String :=
  "cache.tar." ++ m.toString

/-- Platform path separator, `path.sep` of node. -/
def pathSep : Platform → String
  | .win32 => "\\"
  | _ => "/"

/-- The `replace(SepRe, "/")` normalization used throughout `src/tar.ts`:
every platform path separator becomes a forward slash. -/
def fixSep (p : Platform) (s : String) : String :=
  s.replace (pathSep p) "/"

/-- Manifest file name constant from `src/tar.ts`. -/
def ManifestFilename : String := "manifest.txt"

/-- The recurring guard in `src/tar.ts`:
tool is BSD, method is zstd and the host is Windows. -/
def bsdTarZstd (tar : ArchiveTool) (method : CompressionMethod) (p : Platform) : Bool :=
  tar.type == ArchiveToolType.bsd && method == CompressionMethod.zstd
    && p == Platform.win32

/-- Environment of the command builder: host platform plus the working
directory returned by `getWorkingDirectory` (an environment read). -/
structure TarEnv where
  platform : Platform
  workdir : String
deriving DecidableEq, BEq, Repr

/-- Embedding of `getTarArgs` from `src/tar.ts`: the argument vector of the
archiving step for a given tool, method and command type. -/
def getTarArgs (env : TarEnv) (tar : ArchiveTool) (method : CompressionMethod)
    (ty : CommandType) (archive : String) : List String :=
  let filename := getCacheFilename method
  let workdir := env.workdir
  let tarfile := "cache.tar"
  let bz := bsdTarZstd tar method env.platform
  let args : List String :=
    match ty with
    | .create =>
        [tar.path, "--posix", "-cf",
         if bz then tarfile else fixSep env.platform filename,
         "--exclude",
         if bz then tarfile else fixSep env.platform filename,
         "-P", "-C", fixSep env.platform workdir,
         "--files-from", ManifestFilename]
    | .extract =>
        [tar.path, "-xf",
         if bz then tarfile else fixSep env.platform archive,
         "-P", "-C", fixSep env.platform workdir]
    | .list =>
        [tar.path, "-tf",
         if bz then tarfile else fixSep env.platform archive,
         "-P"]
  args ++
    (if tar.type == ArchiveToolType.gnu then
      match env.platform with
      | .win32 => ["--force-local"]
      | .darwin => ["--delay-directory-restore"]
      | .linux => []
    else [])

/-- Embedding of `getCompressionProgram` from `src/tar.ts`. -/
def getCompressionProgram (p : Platform) (tar : ArchiveTool)
    (method : CompressionMethod) : List String :=
  let filename := getCacheFilename method
  let bz := bsdTarZstd tar method p
  match method with
  | .zstd =>
      if bz then
        ["zstd -T0 --force -o", fixSep p filename, "cache.tar"]
      else
        ["--use-compress-program",
         if p == Platform.win32 then "\"zstd -T0\"" else "zstdmt"]
  | .gzip => ["-z"]

/-- Embedding of `getDecompressionProgram` from `src/tar.ts`. -/
def getDecompressionProgram (p : Platform) (tar : ArchiveTool)
    (method : CompressionMethod) (archive : String) : List String :=
  let bz := bsdTarZstd tar method p
  match method with
  | .zstd =>
      if bz then
        ["zstd -d --force -o", "cache.tar", fixSep p archive]
      else
        ["--use-compress-program",
         if p == Platform.win32 then "\"zstd -d\"" else "zstdmt"]
  | .gzip => ["-z"]

/-- Embedding of `getCommands` from `src/tar.ts`: the list of shell command
strings to run in order. The archive tool is a parameter because the source
resolves it from the host via `getTarPath` (environment probing). -/
def getCommands (env : TarEnv) (tar : ArchiveTool) (method : CompressionMethod)
    (ty : CommandType) (archive : String) : List String :=
  let tarArgs := getTarArgs env tar method ty archive
  let compressArgs :=
    if ty != CommandType.create then
      getDecompressionProgram env.platform tar method archive
    else
      getCompressionProgram env.platform tar method
  let bz := bsdTarZstd tar method env.platform
  let args :=
    if bz && ty != CommandType.create then
      [String.intercalate " " compressArgs, String.intercalate " " tarArgs]
    else
      [String.intercalate " " tarArgs, String.intercalate " " compressArgs]
  if bz then args else [String.intercalate " " args]

end GcsCache

namespace GcsCache

/-- C7: on the {BSD tool, zstd, Windows} combination the command builder
produces exactly two sequential commands for both create (archiving step
followed by the compression step) and extract (decompression step followed
by the archiving step); in every combination where that guard is false it
produces exactly one command. -/
theorem getCommands_bsd_zstd_windows (env : TarEnv) (tar : ArchiveTool)
    (archive : String) (hp : env.platform = Platform.win32)
    (ht : tar.type = ArchiveToolType.bsd) :
    (getCommands env tar .zstd .create archive =
      [String.intercalate " " (getTarArgs env tar .zstd .create archive),
       String.intercalate " " (getCompressionProgram env.platform tar .zstd)]) ∧
    (getCommands env tar .zstd .extract archive =
      [String.intercalate " "
         (getDecompressionProgram env.platform tar .zstd archive),
       String.intercalate " " (getTarArgs env tar .zstd .extract archive)]) ∧
    (∀ (env2 : TarEnv) (tar2 : ArchiveTool) (m : CompressionMethod)
       (ty : CommandType) (a : String),
       bsdTarZstd tar2 m env2.platform = false →
       (getCommands env2 tar2 m ty a).length = 1) := by
  refine ⟨?_, ?_, ?_⟩
  · simp +decide [getCommands, bsdTarZstd, hp, ht]
  · simp +decide [getCommands, bsdTarZstd, hp, ht]
  · intro env2 tar2 m ty a hbz
    simp [getCommands, hbz]

/-- Witness for C7 at a concrete environment. -/
theorem getCommands_bsd_zstd_windows_witness :
    (getCommands ⟨Platform.win32, "D:\\w"⟩ ⟨"tar", ArchiveToolType.bsd⟩
        .zstd .create "arch" =
      [String.intercalate " "
         (getTarArgs ⟨Platform.win32, "D:\\w"⟩ ⟨"tar", ArchiveToolType.bsd⟩
            .zstd .create "arch"),
       String.intercalate " "
         (getCompressionProgram (TarEnv.mk Platform.win32 "D:\\w").platform
            ⟨"tar", ArchiveToolType.bsd⟩ .zstd)]) ∧
    (getCommands ⟨Platform.win32, "D:\\w"⟩ ⟨"tar", ArchiveToolType.bsd⟩
        .zstd .extract "arch" =
      [String.intercalate " "
         (getDecompressionProgram (TarEnv.mk Platform.win32 "D:\\w").platform
            ⟨"tar", ArchiveToolType.bsd⟩ .zstd "arch"),
       String.intercalate " "
         (getTarArgs ⟨Platform.win32, "D:\\w"⟩ ⟨"tar", ArchiveToolType.bsd⟩
            .zstd .extract "arch")]) ∧
    (∀ (env2 : TarEnv) (tar2 : ArchiveTool) (m : CompressionMethod)
       (ty : CommandType) (a : String),
       bsdTarZstd tar2 m env2.platform = false →
       (getCommands env2 tar2 m ty a).length = 1) :=
  getCommands_bsd_zstd_windows ⟨Platform.win32, "D:\\w"⟩
    ⟨"tar", ArchiveToolType.bsd⟩ "arch" rfl rfl

end GcsCache

namespace GcsCache

/-- Errors thrown by the cache modules. `validation` and `configUnset` embed
the `ValidationError` and `ConfigUnsetError` classes of `src/error.ts`;
`external` stands for failures raised by external collaborators (network,
process execution); `strThrow` embeds a thrown plain string (the
`throw "not implemented"` in `saveCache`). -/
inductive JsError where
  | validation (msg : String)
  | configUnset (msg : String)
  | external (msg : String)
  | strThrow (s : String)
deriving DecidableEq, Repr

/-- The `name` property read by the catch handler in `restoreCache`
(`error.name === ValidationError.name`). A thrown plain string has no
`name` property, rendered here as "undefined". -/
def JsError.name : JsError → String
  | .validation _ => "ValidationError"
  | .configUnset _ => "ConfigUnsetError"
  | .external _ => "Error"
  | .strThrow _ => "undefined"

/-- Upload options from `src/options.ts` (`bucket` only). -/
structure UploadOptions where
  bucket : Option String := none
deriving DecidableEq, Repr

/-- Download options from `src/options.ts` (`bucket` and `lookupOnly`). -/
structure DownloadOptions where
  bucket : Option String := none
  lookupOnly : Option Bool := none
deriving DecidableEq, Repr

/-- Error message thrown by `getCommonOptions` when no bucket is available. -/
def ConfigUnsetMsg : String :=
  "Config Error: no bucket value provided and ACTIONS_GCS_CACHE_BUCKET environment variable is unset"

/-- Embedding of `getUploadOptions` (which is `getCommonOptions` applied to
upload options). `envBucket` is the value of the `ACTIONS_GCS_CACHE_BUCKET`
environment variable. Because the TypeScript function mutates the caller's
object in place (`options.bucket = value` on the object aliased by `base`),
the model returns both the function result and the caller-visible state of
the `base` argument after the call. -/
def getUploadOptionsM (envBucket : Option String) (base : Option UploadOptions) :
    Except JsError (UploadOptions × Option UploadOptions) :=
  let options := base.getD {}
  if options.bucket = none then
    match envBucket with
    | none => .error (.configUnset ConfigUnsetMsg)
    | some v =>
      if v = "" then .error (.configUnset ConfigUnsetMsg)
      else
        let updated : UploadOptions := { options with bucket := some v }
        .ok (updated, base.map fun _ => updated)
  else
    .ok (options, base)

/-- Embedding of `getDownloadOptions`: runs the `getCommonOptions` bucket
defaulting on the (aliased) options object, then assigns
`options.lookupOnly = false` when it is undefined, again in place. -/
def getDownloadOptionsM (envBucket : Option String) (base : Option DownloadOptions) :
    Except JsError (DownloadOptions × Option DownloadOptions) :=
  let options0 := base.getD {}
  let afterBucket : Except JsError DownloadOptions :=
    if options0.bucket = none then
      match envBucket with
      | none => .error (.configUnset ConfigUnsetMsg)
      | some v =>
        if v = "" then .error (.configUnset ConfigUnsetMsg)
        else .ok { options0 with bucket := some v }
    else
      .ok options0
  match afterBucket with
  | .error e => .error e
  | .ok options1 =>
    let options2 :=
      if options1.lookupOnly = none then { options1 with lookupOnly := some false }
      else options1
    .ok (options2, base.map fun _ => options2)

end GcsCache

namespace GcsCache

/-- C10: when the caller passes an options object whose `bucket` field is
unset (and the `ACTIONS_GCS_CACHE_BUCKET` environment variable holds a
non-empty value), the option-resolution functions mutate the caller's object
in place: after the call the caller's object carries `bucket` set to the
environment value, and for download options an undefined `lookupOnly` has
additionally been assigned `false`. -/
theorem options_mutated_in_place (v : String) (hv : v ≠ "") :
    (getUploadOptionsM (some v) (some { bucket := none }) =
      .ok ({ bucket := some v }, some { bucket := some v })) ∧
    (getDownloadOptionsM (some v) (some { bucket := none, lookupOnly := none }) =
      .ok ({ bucket := some v, lookupOnly := some false },
           some { bucket := some v, lookupOnly := some false })) := by
  constructor
  · simp [getUploadOptionsM, hv]
  · simp [getDownloadOptionsM, hv]

/-- Witness for C10 at the concrete bucket name "bkt". -/
theorem options_mutated_in_place_witness :
    (getUploadOptionsM (some "bkt") (some { bucket := none }) =
      .ok ({ bucket := some "bkt" }, some { bucket := some "bkt" })) ∧
    (getDownloadOptionsM (some "bkt") (some { bucket := none, lookupOnly := none }) =
      .ok ({ bucket := some "bkt", lookupOnly := some false },
           some { bucket := some "bkt", lookupOnly := some false })) :=
  options_mutated_in_place "bkt" (by decide)

end GcsCache

namespace GcsCache

/-- A nonempty extension is lexicographically above the base character list. -/
theorem char_list_lt_append (l : List Char) :
    ∀ t : List Char, t ≠ [] → l < l ++ t := by
  induction l with
  | nil =>
    intro t ht
    match t, ht with
    | b :: bs, _ => exact List.Lex.nil
  | cons c l ih =>
    intro t ht
    exact List.Lex.cons (ih t ht)

/-- Strings with equal character data are equal. -/
theorem string_data_inj {p s : String} (h : p.data = s.data) : p = s := by
  cases p
  cases s
  exact congrArg String.mk h

/-- A string is lexicographically below any proper extension of it. -/
theorem string_lt_of_ipfx_ne {p s : String} (h : p.data <+: s.data)
    (hne : p.data ≠ s.data) : p < s := by
  obtain ⟨t, ht⟩ := h
  have htne : t ≠ [] := by
    intro h0
    subst h0
    simp at ht
    exact hne ht
  rw [String.lt_iff_toList_lt]
  show p.data < s.data
  rw [← ht]
  exact char_list_lt_append p.data t htne

/-- Remote object metadata as read from the blob store listing:
`{ name, metadata.timeCreated, metadata.contentType }` of a `File`. -/
structure GFile where
  name : String
  timeCreated : Option Nat := none
  contentType : Option String := none
deriving DecidableEq, Repr

/-- Creation time with the source's `timeCreated || 0` defaulting. -/
def fileTime (f : GFile) : Nat := f.timeCreated.getD 0

/-- The recency scan of `findCacheEntry`: `newest` starts at `files[0]` and
every file with a strictly later creation time replaces it. -/
def newestFile (first : GFile) (files : List GFile) : GFile :=
  files.foldl
    (fun newest file => if fileTime newest < fileTime file then file else newest)
    first

theorem newestFile_mem (files : List GFile) :
    ∀ first, newestFile first files = first ∨ newestFile first files ∈ files := by
  induction files with
  | nil => intro first; exact Or.inl rfl
  | cons b l ih =>
    intro first
    have step : newestFile first (b :: l) =
        newestFile (if fileTime first < fileTime b then b else first) l := rfl
    rw [step]
    rcases ih (if fileTime first < fileTime b then b else first) with h | h
    · rw [h]
      by_cases hc : fileTime first < fileTime b
      · simp [hc]
      · simp [hc]
    · exact Or.inr (List.mem_cons_of_mem b h)

theorem newestFile_le (files : List GFile) :
    ∀ first, fileTime first ≤ fileTime (newestFile first files) ∧
      ∀ b ∈ files, fileTime b ≤ fileTime (newestFile first files) := by
  induction files with
  | nil => intro first; exact ⟨le_refl _, by simp⟩
  | cons b l ih =>
    intro first
    have step : newestFile first (b :: l) =
        newestFile (if fileTime first < fileTime b then b else first) l := rfl
    rw [step]
    obtain ⟨h1, h2⟩ := ih (if fileTime first < fileTime b then b else first)
    constructor
    · refine le_trans ?_ h1
      by_cases hc : fileTime first < fileTime b
      · simp only [if_pos hc]; exact le_of_lt hc
      · simp [hc]
    · intro c hcmem
      rcases List.mem_cons.mp hcmem with rfl | hcl
      · refine le_trans ?_ h1
        by_cases hc2 : fileTime first < fileTime c
        · simp [hc2]
        · simp only [if_neg hc2]; exact le_of_not_lt hc2
      · exact h2 c hcl

/-- Embedding of `findCacheEntry` from `src/cache.ts`. The blob store
listing capability (`bucket.getFiles({ prefix })`) is the `lister`
parameter; a listing failure (`.error`) propagates out as the source's
awaited promise rejection does. For each key in order: an empty listing
moves on to the next key; otherwise, if the first listed file is named
exactly `{repository}/{key}` it is returned, else the file with the latest
creation time is returned. -/
def findCacheEntry (lister : String → Except String (List GFile))
    (repository : String) : List String → Except String (Option GFile)
  | [] => .ok none
  | key :: rest =>
    match lister (repository ++ "/" ++ key) with
    | .error e => .error e
    | .ok [] => findCacheEntry lister repository rest
    | .ok (first :: tail) =>
      if first.name = repository ++ "/" ++ key then .ok (some first)
      else .ok (some (newestFile first (first :: tail)))

end GcsCache

namespace GcsCache

/-- C4: if the listing returned for the search string `{repository}/{key}`
is name-sorted (as blob store listings are), every listed name extends the
search string, and some listed file is named exactly `{repository}/{key}`,
then resolution returns a file carrying exactly that name, regardless of
creation timestamps. -/
theorem findCacheEntry_returns_exact_match
    (lister : String → Except String (List GFile)) (repository key : String)
    (files : List GFile) (f : GFile)
    (hl : lister (repository ++ "/" ++ key) = .ok files)
    (hsorted : files.Pairwise (fun a b => ¬ b.name < a.name))
    (hipfx : ∀ g ∈ files, (repository ++ "/" ++ key).data <+: g.name.data)
    (hmem : f ∈ files) (hname : f.name = repository ++ "/" ++ key) :
    ∃ g ∈ files, g.name = repository ++ "/" ++ key ∧
      findCacheEntry lister repository [key] = .ok (some g) := by
  cases files with
  | nil => exact absurd hmem (List.not_mem_nil f)
  | cons first tail =>
    have hfirst : first.name = repository ++ "/" ++ key := by
      by_contra hne
      have hp1 : (repository ++ "/" ++ key).data <+: first.name.data :=
        hipfx first (List.mem_cons_self _ _)
      have hlt : (repository ++ "/" ++ key) < first.name := by
        refine string_lt_of_ipfx_ne hp1 ?_
        intro hdata
        exact hne (string_data_inj hdata).symm
      rcases List.mem_cons.mp hmem with rfl | htail
      · exact hne hname
      · have hnot := (List.pairwise_cons.mp hsorted).1 f htail
        rw [hname] at hnot
        exact hnot hlt
    refine ⟨first, List.mem_cons_self _ _, hfirst, ?_⟩
    simp [findCacheEntry, hl, hfirst]

/-- Witness for C4: a two-entry listing where the exact match is first and
an extension with a later timestamp follows. -/
theorem findCacheEntry_returns_exact_match_witness :
    ∃ g ∈ ([⟨"repo/k", some 5, none⟩, ⟨"repo/k/x", some 9, none⟩] : List GFile),
      g.name = "repo" ++ "/" ++ "k" ∧
      findCacheEntry
        (fun _ => .ok [⟨"repo/k", some 5, none⟩, ⟨"repo/k/x", some 9, none⟩])
        "repo" ["k"] = .ok (some g) :=
  findCacheEntry_returns_exact_match
    (fun _ => .ok [⟨"repo/k", some 5, none⟩, ⟨"repo/k/x", some 9, none⟩])
    "repo" "k" [⟨"repo/k", some 5, none⟩, ⟨"repo/k/x", some 9, none⟩]
    ⟨"repo/k", some 5, none⟩ rfl
    (by simp only [String.lt_iff_toList_lt]; decide) (by decide)
    (by decide) (by decide)

/-- C9: if the listing returned for the search string `{repository}/{key}`
is nonempty and no listed file is named exactly `{repository}/{key}`, then
resolution returns a listed file whose creation time is maximal among all
returned entries. -/
theorem findCacheEntry_returns_newest
    (lister : String → Except String (List GFile)) (repository key : String)
    (first : GFile) (tail : List GFile)
    (hl : lister (repository ++ "/" ++ key) = .ok (first :: tail))
    (hnoexact : ∀ g ∈ first :: tail, g.name ≠ repository ++ "/" ++ key) :
    ∃ g ∈ first :: tail,
      findCacheEntry lister repository [key] = .ok (some g) ∧
      ∀ b ∈ first :: tail, fileTime b ≤ fileTime g := by
  have hfirst : ¬ first.name = repository ++ "/" ++ key :=
    hnoexact first (List.mem_cons_self _ _)
  refine ⟨newestFile first (first :: tail), ?_, ?_, ?_⟩
  · rcases newestFile_mem (first :: tail) first with h | h
    · rw [h]; exact List.mem_cons_self _ _
    · exact h
  · simp [findCacheEntry, hl, hfirst]
  · exact (newestFile_le (first :: tail) first).2

/-- Witness for C9: two prefix matches, no exact match; resolution picks the
later one. -/
theorem findCacheEntry_returns_newest_witness :
    ∃ g ∈ ([⟨"repo/k-a", some 3, none⟩, ⟨"repo/k-b", some 7, none⟩] : List GFile),
      findCacheEntry
        (fun _ => .ok [⟨"repo/k-a", some 3, none⟩, ⟨"repo/k-b", some 7, none⟩])
        "repo" ["k"] = .ok (some g) ∧
      ∀ b ∈ ([⟨"repo/k-a", some 3, none⟩, ⟨"repo/k-b", some 7, none⟩] : List GFile),
        fileTime b ≤ fileTime g :=
  findCacheEntry_returns_newest
    (fun _ => .ok [⟨"repo/k-a", some 3, none⟩, ⟨"repo/k-b", some 7, none⟩])
    "repo" "k" ⟨"repo/k-a", some 3, none⟩ [⟨"repo/k-b", some 7, none⟩]
    rfl (by decide)

end GcsCache

namespace GcsCache

/-- Content type tag constant of `src/cache.ts`. -/
def ContentTypeTag : String := "application/x-actions-cache-gcs-"

/-- Embedding of `checkKey` from `src/cache.ts`: reject keys longer than 512
characters with a `ValidationError`. -/
def checkKey (key : String) : Except JsError Unit :=
  if key.length > 512 then
    .error (.validation
      ("Key Validation Error: " ++ key ++ " cannot be larger than 512 characters."))
  else
    .ok ()

/-- The key-validation loop of `restoreCache` (`for (const key of keys)`). -/
def checkKeys : List String → Except JsError Unit
  | [] => .ok ()
  | k :: rest =>
    match checkKey k with
    | .error e => .error e
    | .ok _ => checkKeys rest

/-- Observable events of one `restoreCache` run. `unhandledRejection` records
that the fire-and-forget `exec.exec("tar", ["xf", archive])` inside the local
`extractTar` rejected: that call is launched WITHOUT `await`, so neither
`extractTar`'s own try/catch nor `restoreCache`'s catch ever observes the
failure — it escapes the promise chain entirely. -/
structure RestoreTrace where
  listCalled : Bool := false
  downloadCalled : Bool := false
  extractCalled : Bool := false
  unhandledRejection : Bool := false
deriving DecidableEq, Repr

/-- External collaborators of `restoreCache`: the environment variable, the
CI repository name, the blob-store listing and download outcomes, and the
outcome of the (un-awaited) tar extraction process. -/
structure RestoreEnv where
  envBucket : Option String
  repository : String
  lister : String → Except String (List GFile)
  downloadResult : String → Except String Unit
  tarExtractOk : Bool

/-- JavaScript `s.startsWith(p)`, modelled on character data. -/
def strStartsWith (s p : String) : Bool :=
  p.data.isPrefixOf s.data

/-- JavaScript `s.substring(n)` (drop the first `n` characters), modelled on
character data. -/
def strDrop (s : String) (n : Nat) : String :=
  String.mk (s.data.drop n)

/-- The try-block body of `restoreCache` (entry resolution, content-type
decoding, download, extraction, and the final
`entry.name.substring(repository.length)` return). Note that the source's
local `extractTar` does not await its `exec.exec` call, so a failing
extraction does not produce an error here; it is recorded in the trace as an
unhandled rejection instead (see `RestoreTrace`). -/
def restoreTryBody (env : RestoreEnv) (opts : DownloadOptions)
    (keys : List String) : Except JsError (Option String) × RestoreTrace :=
  let t0 : RestoreTrace := { listCalled := true }
  match findCacheEntry env.lister env.repository keys with
  | .error msg => (.error (.external msg), t0)
  | .ok none => (.ok none, t0)
  | .ok (some entry) =>
    match entry.contentType with
    | none => (.ok none, t0)
    | some ct =>
      if ¬ strStartsWith ct ContentTypeTag then (.ok none, t0)
      else
        let m := strDrop ct ContentTypeTag.length
        if m ≠ "zstd" ∧ m ≠ "gzip" then (.ok none, t0)
        else
          if opts.lookupOnly = some true then
            (.ok (some (strDrop entry.name env.repository.length)), t0)
          else
            match env.downloadResult entry.name with
            | .error msg =>
              (.error (.external msg), { t0 with downloadCalled := true })
            | .ok _ =>
              (.ok (some (strDrop entry.name env.repository.length)),
               { t0 with
                 downloadCalled := true
                 extractCalled := true
                 unhandledRejection := !env.tarExtractOk })

/-- Embedding of `restoreCache` from `src/cache.ts`: option resolution, the
10-key limit, per-key length validation, then the try block; the catch
handler rethrows errors whose `name` is "ValidationError" and converts every
other caught error into a warning plus an undefined result. -/
def restoreCacheModel (env : RestoreEnv) (primaryKey : String)
    (restoreKeys : Option (List String)) (options : Option DownloadOptions) :
    Except JsError (Option String) × RestoreTrace :=
  match getDownloadOptionsM env.envBucket options with
  | .error e => (.error e, {})
  | .ok (opts, _) =>
    let keys := primaryKey :: restoreKeys.getD []
    if keys.length > 10 then
      (.error (.validation "Key Validation Error: Keys are limited to a maximum of 10"), {})
    else
      match checkKeys keys with
      | .error e => (.error e, {})
      | .ok _ =>
        match restoreTryBody env opts keys with
        | (.ok v, tr) => (.ok v, tr)
        | (.error e, tr) =>
          if e.name = "ValidationError" then (.error e, tr)
          else (.ok none, tr)

/-- Observable events of one `saveCache` run. -/
structure SaveTrace where
  tempdirCreated : Bool := false
  tempdirRemoved : Bool := false
  tarArgv : Option (List String) := none
  manifestContent : Option String := none
  uploadStarted : Bool := false
  uploadDestination : Option String := none
deriving DecidableEq, Repr

/-- External collaborators of `saveCache`. `resolvedPaths` is the result of
`resolvePaths` (glob expansion against the working tree); `zstdProbeOutput`
is the combined output of `zstd --quiet --version`; `tarOk` is the outcome of
the awaited `exec.exec("tar", args)` inside the local `createTar`;
`uploadOk` is the eventual outcome of `bucket.upload` — which the source
does NOT await, so it can never influence the function's result. -/
structure SaveEnv where
  envBucket : Option String
  repository : String
  tempdir : String
  resolvedPaths : List String
  zstdProbeOutput : String
  tarOk : Bool
  uploadOk : Bool

/-- Argument vector built by the local `createTar` of `src/cache.ts`:
`["cf", archive, "--files-from", manifest]` plus the compression flag. -/
def createTarArgs (archive manifest : String) (m : CompressionMethod) : List String :=
  ["cf", archive, "--files-from", manifest] ++
    (match m with
     | .gzip => ["--gzip"]
     | .zstd => ["--zstd"])

/-- Embedding of `saveCache` from `src/cache.ts`: option resolution,
compression probing, resolved-path validation, temporary directory creation,
then `try { await createTar(...); bucket.upload(...) } catch (e) {}` followed
by the unconditional `throw "not implemented"`. The catch body is empty, so a
`createTar` failure is swallowed; `bucket.upload` is not awaited, so the
upload is merely initiated (recorded in the trace) and its outcome is
unobservable; no code path removes the temporary directory. The manifest is
written from the raw `paths` argument (not from the resolved paths). -/
def saveCacheModel (env : SaveEnv) (paths : List String) (key : String)
    (options : Option UploadOptions) : Except JsError Unit × SaveTrace :=
  match getUploadOptionsM env.envBucket options with
  | .error e => (.error e, {})
  | .ok (_opts, _) =>
    let method : CompressionMethod :=
      if env.zstdProbeOutput = "" then .gzip else .zstd
    let cachePaths := env.resolvedPaths
    if cachePaths.isEmpty then
      (.error (.validation
        "Path Validation Error: Path(s) specified in teh action for caching do(es) not exist, hence no cache is being saved"),
       {})
    else
      let archive := env.tempdir ++ "/cache.tar." ++ method.toString
      let manifest := env.tempdir ++ "/manifest.txt"
      (.error (.strThrow "not implemented"),
       { tempdirCreated := true,
         tempdirRemoved := false,
         tarArgv := some ("tar" :: createTarArgs archive manifest method),
         manifestContent := some (String.intercalate "\n" paths),
         uploadStarted := env.tarOk,
         uploadDestination :=
           if env.tarOk then some (env.repository ++ "/" ++ key) else none })

end GcsCache

namespace GcsCache

set_option maxRecDepth 16384

/-- Decidable equality for `Except`, used to evaluate the models on
concrete inputs. -/
instance {e a : Type} [DecidableEq e] [DecidableEq a] : DecidableEq (Except e a) :=
  fun x y =>
    match x, y with
    | .error e1, .error e2 =>
      if h : e1 = e2 then isTrue (congrArg Except.error h)
      else isFalse (fun hc => h (Except.error.inj hc))
    | .error _, .ok _ => isFalse (fun hc => Except.noConfusion hc)
    | .ok _, .error _ => isFalse (fun hc => Except.noConfusion hc)
    | .ok a1, .ok a2 =>
      if h : a1 = a2 then isTrue (congrArg Except.ok h)
      else isFalse (fun hc => h (Except.ok.inj hc))

/-- A stored entry named `repo/key1` tagged as a gzip cache archive. -/
def demoListing : List GFile :=
  [{ name := "repo/key1", timeCreated := some 4,
     contentType := some (ContentTypeTag ++ "gzip") }]

/-- Restore environment with bucket "bkt", repository "repo", one matching
entry under the search string `repo/key1`, a succeeding download, and the
given tar-extraction outcome. -/
def demoRestoreEnv (tarOk : Bool) : RestoreEnv :=
  { envBucket := some "bkt"
    repository := "repo"
    lister := fun p => if p = "repo/key1" then .ok demoListing else .ok []
    downloadResult := fun _ => .ok ()
    tarExtractOk := tarOk }

/-- Save environment with bucket "bkt", repository "repo", one resolved
path, no zstd helper (gzip), and the given archive-build and upload
outcomes. -/
def demoSaveEnv (tarOk uploadOk : Bool) : SaveEnv :=
  { envBucket := some "bkt"
    repository := "repo"
    tempdir := "/tmp/t"
    resolvedPaths := ["a.txt"]
    zstdProbeOutput := ""
    tarOk := tarOk
    uploadOk := uploadOk }

/-- C1: evaluated on a run where path resolution yields a non-empty list,
the archive build succeeds and the upload succeeds, `saveCache` still throws
(the unconditional string "not implemented"); and on a run where the upload
fails, the caller receives exactly the same thrown string, not the upload
error — so the upload error is never surfaced. -/
theorem saveCache_throws_not_implemented :
    (saveCacheModel (demoSaveEnv true true) ["a.txt"] "k" none).1
      = .error (.strThrow "not implemented") ∧
    (saveCacheModel (demoSaveEnv true false) ["a.txt"] "k" none).1
      = .error (.strThrow "not implemented") := by
  decide

/-- C2: a 513-character key. `saveCache` performs no key-length validation:
with this key it still reaches the upload (a network call) and throws its
unconditional "not implemented" string rather than a `ValidationError`;
`restoreCache`, by contrast, rejects the same key with a `ValidationError`
before any listing call. -/
theorem saveCache_skips_key_validation :
    (String.mk (List.replicate 513 'a')).length = 513 ∧
    (saveCacheModel (demoSaveEnv true true) ["a.txt"]
        (String.mk (List.replicate 513 'a')) none).1
      = .error (.strThrow "not implemented") ∧
    (saveCacheModel (demoSaveEnv true true) ["a.txt"]
        (String.mk (List.replicate 513 'a')) none).2.uploadStarted = true ∧
    (restoreCacheModel (demoRestoreEnv true)
        (String.mk (List.replicate 513 'a')) none none).1
      = .error (.validation
          ("Key Validation Error: " ++ String.mk (List.replicate 513 'a')
            ++ " cannot be larger than 512 characters.")) ∧
    (restoreCacheModel (demoRestoreEnv true)
        (String.mk (List.replicate 513 'a')) none none).2.listCalled = false := by
  decide

/-- C3: restoring the entry named `repo/key1` returns
`entry.name.substring(repository.length)` = "/key1" — the scope prefix
minus its trailing slash is stripped, so the returned value is not the key
"key1" the claim promises. -/
theorem restore_returns_slash_prefixed_key :
    (restoreCacheModel (demoRestoreEnv true) "key1" none none).1
      = .ok (some "/key1") ∧
    (restoreCacheModel (demoRestoreEnv true) "key1" none none).1
      ≠ .ok (some "key1") := by
  decide

/-- C5: the tar invocation `saveCache` actually executes (recorded in the
trace) is the local `createTar`'s plain
`tar cf <archive> --files-from <manifest> --gzip`, which contains neither an
`--exclude` of the destination archive nor a `-C` working-directory change;
the repository's own command builder (`getTarArgs`, the §4.2 create
sequence) produces both. -/
theorem saveCache_command_diverges_from_builder :
    (saveCacheModel (demoSaveEnv true true) ["a.txt"] "k" none).2.tarArgv
      = some ["tar", "cf", "/tmp/t/cache.tar.gzip", "--files-from",
              "/tmp/t/manifest.txt", "--gzip"] ∧
    "--exclude" ∉ ["tar", "cf", "/tmp/t/cache.tar.gzip", "--files-from",
                   "/tmp/t/manifest.txt", "--gzip"] ∧
    "-C" ∉ ["tar", "cf", "/tmp/t/cache.tar.gzip", "--files-from",
            "/tmp/t/manifest.txt", "--gzip"] ∧
    "--exclude" ∈ getTarArgs ⟨Platform.linux, "/work"⟩
        ⟨"/usr/bin/tar", ArchiveToolType.gnu⟩ .gzip .create "" ∧
    "-C" ∈ getTarArgs ⟨Platform.linux, "/work"⟩
        ⟨"/usr/bin/tar", ArchiveToolType.gnu⟩ .gzip .create "" := by
  refine ⟨by decide, by decide, by decide, ?_, ?_⟩
  · simp [getTarArgs]
  · simp [getTarArgs]

/-- C6: on a restore where a valid entry matches, the download succeeds and
the tar extraction process fails, `restoreCache` neither warns nor converts
the failure into an undefined result: because the `exec.exec` inside
`extractTar` is not awaited, the failure escapes as an unhandled promise
rejection and `restoreCache` still returns the matched (slash-prefixed)
key. -/
theorem restore_extraction_failure_escapes :
    (restoreCacheModel (demoRestoreEnv false) "key1" none none).1
      = .ok (some "/key1") ∧
    (restoreCacheModel (demoRestoreEnv false) "key1" none none).2.extractCalled
      = true ∧
    (restoreCacheModel (demoRestoreEnv false) "key1" none none).2.unhandledRejection
      = true ∧
    (restoreCacheModel (demoRestoreEnv false) "key1" none none).1
      ≠ .ok none := by
  decide

/-- C8: `saveCache` creates its temporary workspace but no exit path removes
it — neither the run where build and upload succeed nor the run where the
archive build fails. -/
theorem saveCache_never_removes_tempdir :
    ((saveCacheModel (demoSaveEnv true true) ["a.txt"] "k" none).2.tempdirCreated
        = true ∧
     (saveCacheModel (demoSaveEnv true true) ["a.txt"] "k" none).2.tempdirRemoved
        = false) ∧
    ((saveCacheModel (demoSaveEnv false true) ["a.txt"] "k" none).2.tempdirCreated
        = true ∧
     (saveCacheModel (demoSaveEnv false true) ["a.txt"] "k" none).2.tempdirRemoved
        = false) := by
  decide

end GcsCache
